import Mathlib

/-!
Verification development for the logical-flow translation core in
`controller/lflow.c`.

The C code is shallowly embedded: hash maps become association lists,
UUIDs become naturals, and the external collaborators (the match/action
grammar in `ovn/expr.h` and `ovn/actions.h`, the flow sink in
`ofctrl.h`, the translation cache in `lflow-cache.c` and the
conjunction-id allocator in `lflow-conj-ids.c`, all outside this tree)
are represented either by oracle fields carrying their per-call results
or by definitions modelled from the specification, as marked in the
doc comments.  Every stateful function returns the new state together
with a log of the externally visible operations it performed.
-/

set_option autoImplicit false

/-- Row identity: `struct uuid` collapsed to a natural number. -/
abbrev Uuid := Nat

/-- `enum ref_type` from `lflow.h`: the four kinds of named external
entities a logical flow can reference. -/
inductive RefType where
  | PORTBINDING
  | MC_GROUP
  | ADDRSET
  | PORTGROUP
deriving DecidableEq, Repr

/-- One bucket of the forward map `ref_lflow_table`: a `(kind, name)`
pair together with the set of referencing rows, each carrying its
reference count (`struct ref_lflow_node` with its `lflow_uuids` hmap of
`struct lflow_ref_list_node`). -/
structure RefBucket where
  rtype : RefType
  rname : String
  rows : List (Uuid × Nat)
deriving DecidableEq, Repr

/-- One node of the reverse map `lflow_ref_table`
(`struct lflow_ref_node`): a row identity with the list of
`(kind, name, ref_count)` edges it holds. -/
structure LflowRefNode where
  lflow_uuid : Uuid
  refs : List (RefType × String × Nat)
deriving DecidableEq, Repr

/-- `struct lflow_resource_ref`: the bidirectional resource-reference
index with its two mutually inverse tables. -/
structure LflowResourceRef where
  ref_lflow_table : List RefBucket
  lflow_ref_table : List LflowRefNode
deriving DecidableEq, Repr

/-- `ref_lflow_lookup`: find the bucket for a `(kind, name)` pair. -/
def ref_lflow_lookup (r : LflowResourceRef) (t : RefType) (n : String) :
    Option RefBucket :=
  r.ref_lflow_table.find? (fun b => b.rtype == t && b.rname == n)

/-- `lflow_ref_lookup`: find the reverse-map node for a row identity. -/
def lflow_ref_lookup (r : LflowResourceRef) (u : Uuid) :
    Option LflowRefNode :=
  r.lflow_ref_table.find? (fun nd => nd.lflow_uuid == u)

/-- Insert a `(row, ref_count)` entry into the bucket for `(t, n)`,
creating the bucket if none exists (the `!rlfn` branch of
`lflow_resource_add` followed by the unconditional `hmap_insert`). -/
def addToBuckets : List RefBucket → RefType → String → Uuid → Nat →
    List RefBucket
  | [], t, n, u, c => [⟨t, n, [(u, c)]⟩]
  | b :: bs, t, n, u, c =>
    if b.rtype = t ∧ b.rname = n then
      {b with rows := b.rows ++ [(u, c)]} :: bs
    else
      b :: addToBuckets bs t n u c

/-- Insert a `(kind, name, ref_count)` edge into the reverse-map node
for row `u`, creating the node if none exists (the `!lfrn` branch of
`lflow_resource_add` followed by `ovs_list_push_back`). -/
def addToNodes : List LflowRefNode → RefType → String → Uuid → Nat →
    List LflowRefNode
  | [], t, n, u, c => [⟨u, [(t, n, c)]⟩]
  | nd :: nds, t, n, u, c =>
    if nd.lflow_uuid = u then
      {nd with refs := nd.refs ++ [(t, n, c)]} :: nds
    else
      nd :: addToNodes nds t n u c

/-- The duplicate check of `lflow_resource_add`: the mapping is only
checked (and the call short-circuited) when both the bucket and the
reverse-map node already exist. -/
def resourceAddDup (r : LflowResourceRef) (t : RefType) (n : String)
    (u : Uuid) : Bool :=
  match ref_lflow_lookup r t n, lflow_ref_lookup r u with
  | some b, some _ => b.rows.any (fun p => p.1 == u)
  | _, _ => false

/-- `lflow_resource_add`: record that row `u` references `(t, n)` with
multiplicity `c`.  When both the bucket and the node already exist and
the bucket already lists `u`, the call returns the index unchanged;
otherwise the edge is inserted on both sides. -/
def lflow_resource_add (r : LflowResourceRef) (t : RefType) (n : String)
    (u : Uuid) (c : Nat) : LflowResourceRef :=
  if resourceAddDup r t n u then r
  else
    ⟨addToBuckets r.ref_lflow_table t n u c,
     addToNodes r.lflow_ref_table t n u c⟩

/-- Remove row `u` from the bucket for `(t, n)`; if that bucket becomes
empty it is deleted (the per-edge body of
`lflow_resource_destroy_lflow`). -/
def removeRowFromBucket (bs : List RefBucket) (t : RefType) (n : String)
    (u : Uuid) : List RefBucket :=
  (bs.map (fun b =>
    if b.rtype = t ∧ b.rname = n then
      {b with rows := b.rows.filter (fun p => ¬ p.1 = u)}
    else b)).filter
    (fun b => ¬ (b.rtype = t ∧ b.rname = n ∧ b.rows = []))

/-- `lflow_resource_destroy_lflow`: drop every edge of row `u` from both
sides of the index, deleting forward buckets that become empty. -/
def lflow_resource_destroy_lflow (r : LflowResourceRef) (u : Uuid) :
    LflowResourceRef :=
  match lflow_ref_lookup r u with
  | none => r
  | some nd =>
    ⟨nd.refs.foldl (fun tbl e => removeRowFromBucket tbl e.1 e.2.1 u)
       r.ref_lflow_table,
     r.lflow_ref_table.filter (fun x => ¬ x.lflow_uuid = u)⟩

/-- The forward map holds an edge `(t, n) → u`. -/
def HasRefEdge (r : LflowResourceRef) (t : RefType) (n : String)
    (u : Uuid) : Prop :=
  ∃ b ∈ r.ref_lflow_table, b.rtype = t ∧ b.rname = n ∧
    u ∈ b.rows.map Prod.fst

/-- The reverse map holds an edge `u → (t, n)`. -/
def RowHasRef (r : LflowResourceRef) (u : Uuid) (t : RefType)
    (n : String) : Prop :=
  ∃ nd ∈ r.lflow_ref_table, nd.lflow_uuid = u ∧
    ∃ e ∈ nd.refs, e.1 = t ∧ e.2.1 = n

instance (r : LflowResourceRef) (t : RefType) (n : String) (u : Uuid) :
    Decidable (HasRefEdge r t n u) := by
  unfold HasRefEdge; infer_instance

instance (r : LflowResourceRef) (u : Uuid) (t : RefType) (n : String) :
    Decidable (RowHasRef r u t n) := by
  unfold RowHasRef; infer_instance

/-- `struct sbrec_datapath_binding`, reduced to its identity and tunnel
key. -/
structure DatapathBinding where
  dpUuid : Uuid
  tunnelKey : Nat
deriving DecidableEq, Repr

/-- `struct local_datapath`: a locally instantiated datapath (the
switch-vs-router flag is what `consider_logical_flow__` reads). -/
structure LocalDatapath where
  datapath : DatapathBinding
  is_switch : Bool
deriving DecidableEq, Repr

/-- `struct sbrec_port_binding`, reduced to the fields the translator
reads: the owning datapath (identity and tunnel key) and the port's
tunnel key. -/
structure PortBinding where
  dpUuid : Uuid
  dpTunnelKey : Nat
  tunnelKey : Nat
deriving DecidableEq, Repr

/-- The read-only snapshot views of `struct lflow_ctx_in` that the
modelled functions consult: the local-datapaths map, the
port-binding-by-name index, the multicast-group-by-datapath-and-name
index and the related-local-port-ids set (the latter as
`(datapath tunnel key, port tunnel key)` pairs, standing for the
strings built by `get_unique_lport_key`). -/
structure Env where
  localDatapaths : List LocalDatapath
  port_binding_by_name : String → Option PortBinding
  mcgroup_by_dp_name : Uuid → String → Option Nat
  relatedLportIds : List (Nat × Nat)

/-- `get_local_datapath`: look a datapath up by tunnel key. -/
def get_local_datapath (env : Env) (tunnelKey : Nat) :
    Option LocalDatapath :=
  env.localDatapaths.find? (fun l => l.datapath.tunnelKey == tunnelKey)

/-- `get_mc_group_key` (from `local_data.c`, outside this tree):
the string key combining a datapath tunnel key and a group name.
Modelled from the spec: "Multicast group: datapath + name → tunnel
key"; the exact format only needs to be injective per (key, name). -/
def get_mc_group_key (portName : String) (dpKey : Nat) : String :=
  toString dpKey ++ "/" ++ portName

/-- `lookup_port_cb`: the port-lookup callback handed to the expression
and action compilers.  The literal name `"none"` succeeds with port 0
and records nothing.  Any other name first records a `PORTBINDING`
reference, then tries the port-binding index (the binding must sit on
the datapath being translated); on failure it records an `MC_GROUP`
reference and tries the multicast-group index.  Returns the port number
(if found) and the updated resource-reference index. -/
def lookup_port_cb (env : Env) (dp : DatapathBinding) (lflowUuid : Uuid)
    (lfrr : LflowResourceRef) (portName : String) :
    Option Nat × LflowResourceRef :=
  if portName = "none" then (some 0, lfrr)
  else
    let lfrr1 := lflow_resource_add lfrr .PORTBINDING portName lflowUuid 0
    let pbRes :=
      match env.port_binding_by_name portName with
      | some pb => if pb.dpUuid = dp.dpUuid then some pb.tunnelKey else none
      | none => none
    match pbRes with
    | some k => (some k, lfrr1)
    | none =>
      let mgKey := get_mc_group_key portName dp.tunnelKey
      let lfrr2 := lflow_resource_add lfrr1 .MC_GROUP mgKey lflowUuid 0
      match env.mcgroup_by_dp_name dp.dpUuid portName with
      | some k => (some k, lfrr2)
      | none => (none, lfrr2)

/-- One conjunction label of a produced match
(`struct cls_conjunction`). -/
structure Conjunction where
  id : Nat
  clause : Nat
  n_clauses : Nat
deriving DecidableEq, Repr

/-- `struct expr_match`, reduced to the fields `lflow.c` reads: the
optional address-set annotation `(as_name, as_ip)`, the conjunction
labels (`m->n` is their number), and, for switch datapaths, the value
its logical in/out-port register pins (0 when unconstrained). -/
structure ExprMatch where
  as_name : Option String
  as_ip : Nat
  conjunctions : List Conjunction
  portReg : Nat
deriving DecidableEq, Repr

/-- `expr_matches_prepare` (from `expr.c`, outside this tree).
Modelled from the spec: rewrite each match's conjunction labels to use
the allocated base, i.e. offset every conjunction id; ids live in a
32-bit space. -/
def expr_matches_prepare (ms : List ExprMatch) (ofs : Nat) :
    List ExprMatch :=
  ms.map (fun m =>
    {m with conjunctions :=
      m.conjunctions.map (fun c => {c with id := (c.id + ofs) % 2 ^ 32})})

/-- An entry of the translation cache (`struct lflow_cache_value`):
either a simplified expression tree (abstracted to a tag) or a fully
expanded match set with its conjunction-id offset and count. -/
inductive LflowCacheValue where
  | cExpr (e : Nat)
  | cMatches (conj_id_ofs : Nat) (n_conjs : Nat) (ms : List ExprMatch)
deriving DecidableEq, Repr

/-- The translation cache (`lflow-cache.c`, outside this tree).
Modelled from the spec: per-row slot holding at most one entry, plus the
global enable flag; `get` yields nothing when caching is disabled. -/
structure LflowCache where
  enabled : Bool
  entries : List (Uuid × LflowCacheValue)
deriving DecidableEq, Repr

/-- Modelled from the spec: `lflow_cache_get`. -/
def lflow_cache_get (c : LflowCache) (u : Uuid) :
    Option LflowCacheValue :=
  if c.enabled then (c.entries.find? (fun e => e.1 == u)).map Prod.snd
  else none

/-- Modelled from the spec: `lflow_cache_delete`. -/
def lflow_cache_delete (c : LflowCache) (u : Uuid) : LflowCache :=
  {c with entries := c.entries.filter (fun e => ¬ e.1 = u)}

/-- Modelled from the spec: `lflow_cache_add_matches`. -/
def lflow_cache_add_matches (c : LflowCache) (u : Uuid) (ofs n : Nat)
    (ms : List ExprMatch) : LflowCache :=
  {c with entries := c.entries.filter (fun e => ¬ e.1 = u) ++
    [(u, .cMatches ofs n ms)]}

/-- Modelled from the spec: `lflow_cache_add_expr` (the stored tree is
abstracted to a tag). -/
def lflow_cache_add_expr (c : LflowCache) (u : Uuid) : LflowCache :=
  {c with entries := c.entries.filter (fun e => ¬ e.1 = u) ++
    [(u, .cExpr 0)]}

/-- Per-call results of the external match/action compiler
(`ovn/expr.h`, `ovn/actions.h`, outside this tree), presented as an
oracle: whatever the parser, the condition evaluator, the
match expander and the action encoder would report for the row at
hand.  The port names looked up through the callbacks are listed so
that their resource-reference side effects can be replayed through
`lookup_port_cb`. -/
structure Oracle where
  actionsParseOk : Bool
  parseOk : Bool
  parseAsRefs : List (String × Nat)
  parsePgRefs : List String
  condPortNames : List String
  matchPortNames : List String
  expr_matches : List ExprMatch
  n_conjs : Nat
  allocSpecifiedOk : Bool
  allocNewId : Nat
  conjIdFind : Nat
  meterAssign : Nat
  encodePortNames : List String

/-- Conjunction-id allocator operations issued to `lflow-conj-ids.c`
(outside this tree), recorded as a log. -/
inductive CidOp where
  | allocSpecified (lflow dp : Uuid) (base n : Nat) (ok : Bool)
  | alloc (lflow dp : Uuid) (n : Nat) (result : Nat)
  | find (lflow dp : Uuid) (result : Nat)
  | free (lflow : Uuid)
deriving DecidableEq, Repr

/-- Translation-cache operations, recorded as a log. -/
inductive CacheOp where
  | delete (u : Uuid)
  | addMatches (u : Uuid) (conj_id_ofs n_conjs : Nat) (ms : List ExprMatch)
  | addExpr (u : Uuid)
deriving DecidableEq, Repr

/-- Flow-sink operations (`ofctrl.h`, outside this tree), recorded as a
log. -/
inductive FlowOp where
  | addFlow (ptable priority : Nat) (u : Uuid) (m : ExprMatch)
      (meterId : Nat) (asInfo : Option (String × Nat))
  | addOrAppend (ptable priority : Nat) (u : Uuid) (m : ExprMatch)
      (meterId : Nat) (asInfo : Option (String × Nat))
  | removeForAsIp (u : Uuid) (asName : String) (ip : Nat)
      (expectedCount : Nat)
  | floodRemove (us : List Uuid)
deriving DecidableEq, Repr

/-- The mutable state threaded through the translator: the
resource-reference index, the translation cache, and the logs of
conjunction-id, cache and flow-sink operations, plus whether the action
parser has been invoked. -/
structure CLFState where
  lfrr : LflowResourceRef
  cache : LflowCache
  cidOps : List CidOp
  cacheOps : List CacheOp
  flowOps : List FlowOp
  actionsParsed : Bool
deriving Repr

/-- `struct sbrec_logical_flow`, reduced to the fields the translator
reads (`io_port` is the `in_out_port` tag; the datapath or
datapath-group binding is supplied separately by the caller). -/
structure LogicalFlow where
  uuid : Uuid
  pipeline : String
  table_id : Nat
  priority : Nat
  controller_meter : Option String
  io_port : Option String
deriving Repr

/-- Modelled from the spec: `NX_CTLR_NO_METER` from OVS
`openvswitch/ofp-actions.h` (outside this tree); the *no meter*
value, 0. -/
def NX_CTLR_NO_METER : Nat := 0

/-- Modelled from the spec: `EXT_TABLE_ID_INVALID` from
`lib/extend-table.h` (outside this tree); the id-assignment failure
value, 0. -/
def EXT_TABLE_ID_INVALID : Nat := 0

/-- `lflow_parse_ctrl_meter`: the meter id starts at
`NX_CTLR_NO_METER`; when the row names a controller meter it is
overwritten with the external table's assignment (which is
`EXT_TABLE_ID_INVALID` on exhaustion — the function logs and returns,
leaving that value in place). -/
def lflow_parse_ctrl_meter (controller_meter : Option String)
    (assignResult : Nat) : Nat :=
  match controller_meter with
  | none => NX_CTLR_NO_METER
  | some _ => assignResult

/-- Modelled from the spec: the fixed physical table numbers from
`lflow.h` (outside this tree).  Their concrete values are uninterpreted
pass-throughs to the flow sink; distinct placeholders are used. -/
def OFTABLE_LOG_INGRESS_PIPELINE : Nat := 8

/-- Modelled from the spec: egress pipeline base table. -/
def OFTABLE_LOG_EGRESS_PIPELINE : Nat := 40

/-- Modelled from the spec: the MAC-binding (ARP/ND-get) table. -/
def OFTABLE_MAC_BINDING : Nat := 66

/-- Modelled from the spec: the MAC-lookup (ARP/ND-lookup) table. -/
def OFTABLE_MAC_LOOKUP : Nat := 67

/-- Whether the row is in the ingress pipeline
(`!strcmp(lflow->pipeline, "ingress")`). -/
def lflowIngress (lf : LogicalFlow) : Bool := lf.pipeline = "ingress"

/-- The physical table of the row:
`first_ptable + lflow->table_id` in `uint8_t` arithmetic. -/
def lflowPtable (lf : LogicalFlow) : Nat :=
  ((if lflowIngress lf then OFTABLE_LOG_INGRESS_PIPELINE
    else OFTABLE_LOG_EGRESS_PIPELINE) + lf.table_id) % 2 ^ 8

/-- The optional `(as_name, as_ip)` annotation handed to the flow sink
(`struct addrset_info`, with `as_info.name ? &as_info : NULL`). -/
def asInfoOf (m : ExprMatch) : Option (String × Nat) :=
  m.as_name.map (fun nm => (nm, m.as_ip))

/-- `add_matches_to_flow_table`: parse the controller meter, encode the
actions (whose port lookups update the resource-reference index through
`lookup_port_cb`), then emit one flow-sink operation per match — as an
ordinary rule when the match has no conjunctions, as an
append-conjunction operation otherwise — skipping, on switch
datapaths, matches that pin a logical port not in the related-local
set.  Returns the emitted operations, the updated index and the meter
id used. -/
def add_matches_to_flow_table (lf : LogicalFlow) (ldp : LocalDatapath)
    (env : Env) (orc : Oracle) (ms : List ExprMatch) (ptable : Nat)
    (lfrr : LflowResourceRef) :
    List FlowOp × LflowResourceRef × Nat :=
  let meterId := lflow_parse_ctrl_meter lf.controller_meter orc.meterAssign
  let lfrr1 := orc.encodePortNames.foldl
    (fun r nm => (lookup_port_cb env ldp.datapath lf.uuid r nm).2) lfrr
  let ops := ms.foldl (fun acc m =>
    if ldp.is_switch ∧ m.portReg ≠ 0 ∧
        ¬ (ldp.datapath.tunnelKey, m.portReg) ∈ env.relatedLportIds then
      acc
    else if m.conjunctions = [] then
      acc ++ [FlowOp.addFlow ptable lf.priority lf.uuid m meterId
               (asInfoOf m)]
    else
      acc ++ [FlowOp.addOrAppend ptable lf.priority lf.uuid m meterId
               (asInfoOf m)]) []
  (ops, lfrr1, meterId)

/-- `enum lflow_cache_type` together with the data carried by the cache
entry (`lcv_type` plus the fields of `lcv` that each branch reads). -/
inductive Lcv where
  | tNone
  | tExpr (e : Nat)
  | tMatches (conj_id_ofs n_conjs : Nat) (ms : List ExprMatch)
deriving DecidableEq, Repr

/-- The cache probe of `consider_logical_flow__`: read the row's cache
entry; when it is `MATCHES` with conjunctions, try
`lflow_conj_ids_alloc_specified` for the recorded slice and, on
failure, delete the cache entry and downgrade to `NONE`.  Returns the
effective cache state, the updated cache and the logged operations. -/
def cacheProbe (u dpU : Uuid) (allocSpecifiedOk : Bool)
    (cache : LflowCache) : Lcv × LflowCache × List CidOp × List CacheOp :=
  match lflow_cache_get cache u with
  | none => (.tNone, cache, [], [])
  | some (.cExpr e) => (.tExpr e, cache, [], [])
  | some (.cMatches ofs n ms) =>
    if n ≠ 0 then
      if allocSpecifiedOk then
        (.tMatches ofs n ms, cache,
         [CidOp.allocSpecified u dpU ofs n true], [])
      else
        (.tNone, lflow_cache_delete cache u,
         [CidOp.allocSpecified u dpU ofs n false], [CacheOp.delete u])
    else
      (.tMatches ofs n ms, cache, [], [])

/-- The resource references recorded by `convert_match_to_expr`:
address-set references with their multiplicities, then port-group
references with count 0. -/
def addParseRefs (orc : Oracle) (r : LflowResourceRef) (u : Uuid) :
    LflowResourceRef :=
  let r1 := orc.parseAsRefs.foldl
    (fun acc p => lflow_resource_add acc .ADDRSET p.1 u p.2) r
  orc.parsePgRefs.foldl
    (fun acc nm => lflow_resource_add acc .PORTGROUP nm u 0) r1

/-- The resource references recorded while evaluating
`is_chassis_resident` conditions (`is_chassis_resident_cb` adds a
`PORTBINDING` reference for every queried name). -/
def addCondRefs (names : List String) (r : LflowResourceRef) (u : Uuid) :
    LflowResourceRef :=
  names.foldl (fun acc nm => lflow_resource_add acc .PORTBINDING nm u 0) r

/-- The resource references recorded by the `lookup_port_cb` calls made
while expanding matches or encoding actions. -/
def addPortCbRefs (env : Env) (dp : DatapathBinding) (names : List String)
    (r : LflowResourceRef) (u : Uuid) : LflowResourceRef :=
  names.foldl (fun acc nm => (lookup_port_cb env dp u acc nm).2) r

/-- The tail of `consider_logical_flow__` once emission is reached:
call `add_matches_to_flow_table`, then — only on the `NONE` cache path
with caching enabled — install a `MATCHES` entry when the saved
expression clone exists and the resource-reference index has no
reverse-map entry at all for the row, or an `EXPR` entry when only the
clone exists. -/
def emitAndCache (lf : LogicalFlow) (ldp : LocalDatapath) (env : Env)
    (orc : Oracle) (ms : List ExprMatch) (start_conj_id n_conjs : Nat)
    (cachedExprAvail : Bool) (isNonePath : Bool) (st : CLFState) :
    CLFState :=
  let r := add_matches_to_flow_table lf ldp env orc ms (lflowPtable lf)
    st.lfrr
  let st1 := {st with flowOps := st.flowOps ++ r.1, lfrr := r.2.1}
  if isNonePath ∧ st1.cache.enabled then
    if cachedExprAvail ∧ (lflow_ref_lookup st1.lfrr lf.uuid).isNone then
      {st1 with
        cache := lflow_cache_add_matches st1.cache lf.uuid start_conj_id
          n_conjs ms,
        cacheOps := st1.cacheOps ++
          [CacheOp.addMatches lf.uuid start_conj_id n_conjs ms]}
    else if cachedExprAvail then
      {st1 with
        cache := lflow_cache_add_expr st1.cache lf.uuid,
        cacheOps := st1.cacheOps ++ [CacheOp.addExpr lf.uuid]}
    else st1
  else st1

/-- The shared middle of the `NONE` and `EXPR` cache paths of
`consider_logical_flow__`: evaluate conditions (recording
`PORTBINDING` references), normalize, expand to matches (whose port
lookups also update the index), drop out when no match was produced,
allocate a fresh conjunction-id slice when conjunctions appeared
(dropping out when the 32-bit space is exhausted) and rewrite the
matches to the allocated base, then emit and cache. -/
def exprPathRest (lf : LogicalFlow) (ldp : LocalDatapath) (env : Env)
    (orc : Oracle) (dp : DatapathBinding) (cachedExprAvail : Bool)
    (isNonePath : Bool) (st : CLFState) : CLFState :=
  let lfrrC := addCondRefs orc.condPortNames st.lfrr lf.uuid
  let lfrrM := addPortCbRefs env dp orc.matchPortNames lfrrC lf.uuid
  let st1 := {st with lfrr := lfrrM}
  if orc.expr_matches = [] then st1
  else if orc.n_conjs ≠ 0 then
    let cid := orc.allocNewId
    let st2 := {st1 with cidOps := st1.cidOps ++
      [CidOp.alloc lf.uuid dp.dpUuid orc.n_conjs cid]}
    if cid = 0 then st2
    else
      emitAndCache lf ldp env orc
        (expr_matches_prepare orc.expr_matches (cid - 1)) cid orc.n_conjs
        cachedExprAvail isNonePath st2
  else
    emitAndCache lf ldp env orc orc.expr_matches 0 0 cachedExprAvail
      isNonePath st1

/-- Whether the parse of the match referenced any address set or port
group (`pg_addr_set_ref` as set by `convert_match_to_expr`). -/
def pgAddrSetRefOf (orc : Oracle) : Bool :=
  ¬ (orc.parseAsRefs = [] ∧ orc.parsePgRefs = [])

/-- The post-probe body of `consider_logical_flow__`, dispatching on
the effective cache state: `MATCHES` skips straight to emission with
the cached matches (and writes nothing back); `EXPR` re-runs
condition evaluation and expansion on the cached tree; `NONE` parses
the match text (recording its address-set and port-group references),
drops the row on parse error, and saves a clone for caching when
enabled and no such reference occurred. -/
def translateWithLcv (lf : LogicalFlow) (dp : DatapathBinding)
    (ldp : LocalDatapath) (env : Env) (orc : Oracle) (lcv : Lcv)
    (st : CLFState) : CLFState :=
  match lcv with
  | .tMatches _ofs _n ms =>
    let r := add_matches_to_flow_table lf ldp env orc ms (lflowPtable lf)
      st.lfrr
    {st with flowOps := st.flowOps ++ r.1, lfrr := r.2.1}
  | .tExpr _e => exprPathRest lf ldp env orc dp false false st
  | .tNone =>
    let lfrr1 := addParseRefs orc st.lfrr lf.uuid
    let st1 := {st with lfrr := lfrr1}
    if ¬ orc.parseOk then st1
    else
      exprPathRest lf ldp env orc dp
        (st1.cache.enabled ∧ ¬ pgAddrSetRefOf orc) true st1

/-- The cache probe followed by the post-probe body. -/
def translateCore (lf : LogicalFlow) (dp : DatapathBinding)
    (ldp : LocalDatapath) (env : Env) (orc : Oracle) (st : CLFState) :
    CLFState :=
  let pr := cacheProbe lf.uuid dp.dpUuid orc.allocSpecifiedOk st.cache
  translateWithLcv lf dp ldp env orc pr.1
    {st with
      cache := pr.2.1,
      cidOps := st.cidOps ++ pr.2.2.1,
      cacheOps := st.cacheOps ++ pr.2.2.2}

/-- The in/out-port gate of `consider_logical_flow__`: when the row
carries an `in_out_port` tag, record a `PORTBINDING` reference for the
name; the row is dropped when the named binding does not exist or its
`(datapath key, tunnel key)` is not in the related-local-ports set.
Returns whether translation proceeds, and the updated state. -/
def ioPortGate (lf : LogicalFlow) (dp : DatapathBinding) (env : Env)
    (st : CLFState) : Bool × CLFState :=
  match lf.io_port with
  | none => (true, st)
  | some name =>
    let st1 := {st with
      lfrr := lflow_resource_add st.lfrr .PORTBINDING name lf.uuid 0}
    match env.port_binding_by_name name with
    | none => (false, st1)
    | some pb =>
      if (dp.tunnelKey, pb.tunnelKey) ∈ env.relatedLportIds then
        (true, st1)
      else (false, st1)

/-- `consider_logical_flow__`: translate one logical row on one
datapath.  An absent local datapath returns immediately with nothing
done; then the in/out-port gate, the action parse, the cache probe and
the cache-state dispatch run in the order of the source. -/
def consider_logical_flow__ (lf : LogicalFlow) (dp : DatapathBinding)
    (env : Env) (orc : Oracle) (st : CLFState) : CLFState :=
  match get_local_datapath env dp.tunnelKey with
  | none => st
  | some ldp =>
    let g := ioPortGate lf dp env st
    if ¬ g.1 then g.2
    else
      let st2 := {g.2 with actionsParsed := true}
      if ¬ orc.actionsParseOk then st2
      else translateCore lf dp ldp env orc st2

/-- The filter of the synthetic re-translation: keep exactly the
produced matches annotated with the changed address set's name,
discarding also the match carrying the synthetic padding ip when one
was inserted (the `HMAP_FOR_EACH_SAFE` removal loop of
`consider_lflow_for_added_as_ips__`). -/
def asSurvivors (asName : String) (hasDummy : Bool) (dummyIp : Nat)
    (ms : List ExprMatch) : List ExprMatch :=
  ms.filter (fun m =>
    match m.as_name with
    | none => false
    | some nm => nm = asName ∧ ¬ (hasDummy ∧ m.as_ip = dummyIp))

/-- `consider_lflow_for_added_as_ips__`: re-translate one row against a
fake address set holding only the added constants (padded with a
synthetic second element when only one was added — its value is the
real one with the low byte bumped), filter the produced matches down to
those annotated with the changed set, verify their number equals
`ref_count × |added|`, reuse the row's recorded conjunction-id base
when conjunctions are present, and emit.  Returns the handled flag and
the updated state. -/
def consider_lflow_for_added_as_ips__ (lf : LogicalFlow)
    (dp : DatapathBinding) (asName : String) (as_ref_count : Nat)
    (addedVals : List Nat) (env : Env) (orc : Oracle) (st : CLFState) :
    Bool × CLFState :=
  match get_local_datapath env dp.tunnelKey with
  | none => (true, st)
  | some ldp =>
    let st0 := {st with actionsParsed := true}
    if ¬ orc.actionsParseOk then (true, st0)
    else
      let hasDummy : Bool := addedVals.length = 1
      let dummyIp : Nat := addedVals.headD 0 + 1
      let st1 := {st0 with lfrr := addParseRefs orc st0.lfrr lf.uuid}
      if ¬ orc.parseOk then (true, st1)
      else
        let lfrrC := addCondRefs orc.condPortNames st1.lfrr lf.uuid
        let lfrrM := addPortCbRefs env dp orc.matchPortNames lfrrC lf.uuid
        let st2 := {st1 with lfrr := lfrrM}
        if orc.expr_matches = [] then (true, st2)
        else
          let survivors :=
            asSurvivors asName hasDummy dummyIp orc.expr_matches
          if survivors.length ≠ as_ref_count * addedVals.length then
            (false, st2)
          else if orc.n_conjs ≠ 0 then
            let cid := orc.conjIdFind
            let st3 := {st2 with cidOps := st2.cidOps ++
              [CidOp.find lf.uuid dp.dpUuid cid]}
            if cid = 0 then (false, st3)
            else
              let r := add_matches_to_flow_table lf ldp env orc
                (expr_matches_prepare survivors (cid - 1))
                (lflowPtable lf) st3.lfrr
              (true, {st3 with flowOps := st3.flowOps ++ r.1,
                               lfrr := r.2.1})
          else
            let r := add_matches_to_flow_table lf ldp env orc survivors
              (lflowPtable lf) st2.lfrr
            (true, {st2 with flowOps := st2.flowOps ++ r.1,
                             lfrr := r.2.1})

/-- The width of `size_t` arithmetic in the address-set size
computations. -/
def U64 : Nat := 2 ^ 64

/-- The `old_as_size` computation of `as_update_can_be_handled`:
`as->n_values + n_deleted - n_added` in `size_t` arithmetic. -/
def oldAsSize (n_values n_added n_deleted : Nat) : Nat :=
  (n_values % U64 + n_deleted % U64 + (U64 - n_added % U64)) % U64

/-- `as_update_can_be_handled`: the fast path applies only when the old
and the new size are both at least 2 and the diff is strictly smaller
than the new size. -/
def as_update_can_be_handled (n_values n_added n_deleted : Nat) : Bool :=
  if oldAsSize n_values n_added n_deleted ≤ 1 ∨ n_values ≤ 1 then false
  else if n_values ≤ (n_added % U64 + n_deleted % U64) % U64 then false
  else true

/-- One row of the `rlfn->lflow_uuids` bucket being visited by
`lflow_handle_addr_set_update`, with the oracle results of the work
done for it: for each deleted constant whether it is an address and
whether the flow sink's targeted removal succeeded, and for the added
constants whether the synthetic re-translation handled the row and
which flow operations it emitted. -/
structure AsUpdateRow where
  lflow_uuid : Uuid
  processed : Bool
  existsInTable : Bool
  ref_count : Nat
  deleteIsAddr : List Bool
  deleteOk : List Bool
  addedHandled : Bool
  addedFlowOps : List FlowOp
deriving Repr

/-- The deleted-constants loop of `lflow_handle_addr_set_update` for
one row: skip non-address constants, issue one targeted removal per
address with expected count `ref_count`, and abort reporting unhandled
as soon as a removal fails. -/
def processDeleted (asName : String) (u : Uuid) (ref_count : Nat) :
    List Nat → List Bool → List Bool → Bool × List FlowOp
  | [], _, _ => (true, [])
  | v :: vs, isAddr, oks =>
    let ia := isAddr.headD true
    if ¬ ia then processDeleted asName u ref_count vs isAddr.tail oks.tail
    else
      let op := FlowOp.removeForAsIp u asName v ref_count
      if ¬ oks.headD true then (false, [op])
      else
        let r := processDeleted asName u ref_count vs isAddr.tail oks.tail
        (r.1, op :: r.2)

/-- The per-row body of the `HMAP_FOR_EACH` loop of
`lflow_handle_addr_set_update`: skip rows already processed this cycle
and rows no longer in the input; process deletions, then additions,
aborting with *unhandled* on the first failure. -/
def processAsRow (asName : String) (deletedVals : Option (List Nat))
    (hasAdded : Bool) (row : AsUpdateRow) : Bool × List FlowOp :=
  if row.processed then (true, [])
  else if ¬ row.existsInTable then (true, [])
  else
    let del := match deletedVals with
      | none => (true, [])
      | some vs => processDeleted asName row.lflow_uuid row.ref_count vs
          row.deleteIsAddr row.deleteOk
    if ¬ del.1 then (false, del.2)
    else if hasAdded then
      if row.addedHandled then (true, del.2 ++ row.addedFlowOps)
      else (false, del.2)
    else (true, del.2)

/-- The row loop of `lflow_handle_addr_set_update`, aborting on the
first row reported unhandled. -/
def processAsRowList (asName : String) (deletedVals : Option (List Nat))
    (hasAdded : Bool) : List AsUpdateRow → Bool × List FlowOp
  | [] => (true, [])
  | r :: rs =>
    let h := processAsRow asName deletedVals hasAdded r
    if ¬ h.1 then (false, h.2)
    else
      let t := processAsRowList asName deletedVals hasAdded rs
      (t.1, h.2 ++ t.2)

/-- `lflow_handle_addr_set_update`: the address-set fast path.  When
`as_update_can_be_handled` rejects the update, return unhandled at once
with no flow-sink operation; otherwise visit every row of the
ref→rows bucket for the set (`rows = none` models an absent bucket:
nothing references the set and the update is trivially handled). -/
def lflow_handle_addr_set_update (asName : String) (n_values : Nat)
    (added deleted : Option (List Nat))
    (rows : Option (List AsUpdateRow)) : Bool × List FlowOp :=
  let n_added := (added.map List.length).getD 0
  let n_deleted := (deleted.map List.length).getD 0
  if ¬ as_update_can_be_handled n_values n_added n_deleted then
    (false, [])
  else
    match rows with
    | none => (true, [])
    | some rs => processAsRowList asName deleted added.isSome rs

/-- A MAC binding (dynamic `struct sbrec_mac_binding` or static
`struct sbrec_static_mac_binding`), reduced to the fields
`consider_neighbor_flow` reads; the mac and ip strings are abstracted
to whether `eth_addr_from_string` and `ip_parse`/`ipv6_parse`
accept them. -/
structure NeighborBinding where
  logical_port : String
  macValid : Bool
  ipValid : Bool
  uuid : Uuid
deriving DecidableEq, Repr

/-- A static MAC binding: the common fields plus the
`override_dynamic_mac` flag. -/
structure StaticMacBinding where
  nb : NeighborBinding
  override_dynamic_mac : Bool
deriving DecidableEq, Repr

/-- A neighbor-emitter flow-sink operation: install a rule in a table
at a priority on behalf of a binding, or remove a binding's rules. -/
inductive NbrOp where
  | add (table priority : Nat) (u : Uuid)
  | remove (u : Uuid)
deriving DecidableEq, Repr

/-- `consider_neighbor_flow`: look the logical port up; require its
datapath to be local; require the mac and the ip to parse; then install
one rule in the ARP/ND-get table (`OFTABLE_MAC_BINDING`) and one in
the ARP/ND-lookup table (`OFTABLE_MAC_LOOKUP`), both at the given
priority. -/
def consider_neighbor_flow (env : Env) (nb : NeighborBinding)
    (priority : Nat) : List NbrOp :=
  match env.port_binding_by_name nb.logical_port with
  | none => []
  | some pb =>
    match get_local_datapath env pb.dpTunnelKey with
    | none => []
    | some _ =>
      if ¬ nb.macValid then []
      else if ¬ nb.ipValid then []
      else
        [NbrOp.add OFTABLE_MAC_BINDING priority nb.uuid,
         NbrOp.add OFTABLE_MAC_LOOKUP priority nb.uuid]

/-- `add_neighbor_flows` (full rebuild): every dynamic binding at
priority 100, then every static binding at 150 when
`override_dynamic_mac` is set and 50 otherwise. -/
def add_neighbor_flows (env : Env) (mbs : List NeighborBinding)
    (smbs : List StaticMacBinding) : List NbrOp :=
  mbs.flatMap (fun b => consider_neighbor_flow env b 100) ++
  smbs.flatMap (fun s => consider_neighbor_flow env s.nb
    (if s.override_dynamic_mac then 150 else 50))

/-- A tracked dynamic MAC binding with its change flags. -/
structure TrackedMacBinding where
  mb : NeighborBinding
  isDeleted : Bool
  isNew : Bool
deriving DecidableEq, Repr

/-- A tracked static MAC binding with its change flags. -/
structure TrackedStaticMacBinding where
  smb : StaticMacBinding
  isDeleted : Bool
  isNew : Bool
deriving DecidableEq, Repr

/-- `lflow_handle_changed_mac_bindings`: first pass removes the rules
of deleted bindings; second pass removes the rules of updated (non-new)
bindings and re-emits every surviving binding at priority 100. -/
def lflow_handle_changed_mac_bindings (env : Env)
    (tracked : List TrackedMacBinding) : List NbrOp :=
  (tracked.filter (fun t => t.isDeleted)).map
    (fun t => NbrOp.remove t.mb.uuid) ++
  tracked.flatMap (fun t =>
    if t.isDeleted then []
    else
      (if ¬ t.isNew then [NbrOp.remove t.mb.uuid] else []) ++
      consider_neighbor_flow env t.mb 100)

/-- `lflow_handle_changed_static_mac_bindings`: one pass; deleted
bindings lose their rules, surviving ones are removed when updated and
re-emitted at 150 or 50 according to `override_dynamic_mac`. -/
def lflow_handle_changed_static_mac_bindings (env : Env)
    (tracked : List TrackedStaticMacBinding) : List NbrOp :=
  tracked.flatMap (fun t =>
    if t.isDeleted then [NbrOp.remove t.smb.nb.uuid]
    else
      (if ¬ t.isNew then [NbrOp.remove t.smb.nb.uuid] else []) ++
      consider_neighbor_flow env t.smb.nb
        (if t.smb.override_dynamic_mac then 150 else 50))

/-- A tracked logical-flow row as seen by
`lflow_handle_changed_flows`: whether it was already in the
processed-row set, whether it is newly inserted, and whether it still
exists in the input table after the change. -/
structure TrackedLflow where
  lflow_uuid : Uuid
  processedAtStart : Bool
  isNew : Bool
  stillExists : Bool
deriving DecidableEq, Repr

/-- `lflow_handle_changed_flows`: its result flag `ret` is initialized
to `true` and returned unchanged.  The body floods away the rules of
every tracked row not yet processed (purging cache entries of non-new
rows), then, per flooded row, drops its resource references, frees its
conjunction-id slices, and — when the row still exists — reprocesses
it (`consider_logical_flow`, supplied here as an abstract state
transformer since its per-row oracles are the caller's). -/
def lflow_handle_changed_flows (tracked : List TrackedLflow)
    (reprocess : TrackedLflow → CLFState → CLFState) (st : CLFState) :
    Bool × CLFState :=
  let ret := true
  let flood := tracked.filter (fun t => ¬ t.processedAtStart)
  let st1 := flood.foldl (fun acc t =>
    if ¬ t.isNew ∧ acc.cache.enabled then
      {acc with cache := lflow_cache_delete acc.cache t.lflow_uuid,
                cacheOps := acc.cacheOps ++ [CacheOp.delete t.lflow_uuid]}
    else acc) st
  let st2 := {st1 with flowOps := st1.flowOps ++
    [FlowOp.floodRemove (flood.map (fun t => t.lflow_uuid))]}
  let st3 := flood.foldl (fun acc t =>
    let acc1 := {acc with
      lfrr := lflow_resource_destroy_lflow acc.lfrr t.lflow_uuid,
      cidOps := acc.cidOps ++ [CidOp.free t.lflow_uuid]}
    if t.stillExists then reprocess t acc1 else acc1) st2
  (ret, st3)

/-- The empty resource-reference index. -/
def emptyLfrr : LflowResourceRef := ⟨[], []⟩

/-- A fresh translator state with caching enabled and an empty cache. -/
def st0 : CLFState :=
  ⟨emptyLfrr, ⟨true, []⟩, [], [], [], false⟩

/-- A concrete datapath: identity 70, tunnel key 7. -/
def dp7 : DatapathBinding := ⟨70, 7⟩

/-- An environment where datapath 7 is local (as a switch) and no port
or multicast group resolves. -/
def envLocal7 : Env :=
  ⟨[⟨dp7, true⟩], fun _ => none, fun _ _ => none, []⟩

/-- An environment with no local datapath at all. -/
def envEmpty : Env :=
  ⟨[], fun _ => none, fun _ _ => none, []⟩

/-- A concrete logical row: ingress, table 0, priority 10, no
controller meter, no in/out-port tag. -/
def lf1 : LogicalFlow := ⟨1, "ingress", 0, 10, none, none⟩

/-- The row `lf1` with a controller meter named `"m"`. -/
def lf1meter : LogicalFlow := ⟨1, "ingress", 0, 10, some "m", none⟩

/-- An oracle whose parse succeeds with no address-set or port-group
reference, records one `is_chassis_resident` port reference, and whose
expansion produces no match at all. -/
def orcNoMatches : Oracle :=
  ⟨true, true, [], [], ["cr0"], [], [], 0, true, 0, 0, 0, []⟩

/-- Two matches annotated with address set `"as1"` (ips 11 and 12),
each carrying one conjunction label. -/
def twoAsMatches : List ExprMatch :=
  [⟨some "as1", 11, [⟨1, 0, 2⟩], 0⟩, ⟨some "as1", 12, [⟨1, 1, 2⟩], 0⟩]

/-- An oracle for the synthetic re-translation: both produced matches
are annotated with `"as1"`, conjunctions are present, but the
conjunction-id lookup finds no recorded base. -/
def orcAsNoBase : Oracle :=
  ⟨true, true, [("as1", 1)], [], [], [], twoAsMatches, 1, true, 0, 0, 0, []⟩

/-- A cached match for the cache-probe scenario. -/
def cachedM : List ExprMatch := [⟨none, 0, [⟨1, 0, 2⟩], 0⟩]

/-- A state whose cache holds a `MATCHES` entry for row 1 with
conjunction slice base 3, length 2. -/
def stCachedMatches : CLFState :=
  ⟨emptyLfrr, ⟨true, [(1, .cMatches 3 2 cachedM)]⟩, [], [], [], false⟩

/-- An oracle whose specified-slice allocation fails. -/
def orcAllocFail : Oracle :=
  ⟨true, true, [], [], [], [], [], 0, false, 0, 0, 0, []⟩

/-- A resource-reference index already holding the edge
`(ADDRSET, "as1") ↔ row 5` with count 2. -/
def lfrrWithEdge : LflowResourceRef :=
  ⟨[⟨.ADDRSET, "as1", [(5, 2)]⟩], [⟨5, [(.ADDRSET, "as1", 2)]⟩]⟩

/-- An environment for the neighbor emitters: port `"lp"` is bound on
local datapath 7 with tunnel key 3. -/
def envNbr : Env :=
  ⟨[⟨dp7, true⟩],
   fun nm => if nm = "lp" then some ⟨70, 7, 3⟩ else none,
   fun _ _ => none, []⟩

/-- A MAC binding on port `"lp"` whose mac and ip parse. -/
def nb1 : NeighborBinding := ⟨"lp", true, true, 42⟩

/-- The oracle `orcAsNoBase` with a recorded conjunction-id base (4)
for the row. -/
def orcAsBase4 : Oracle :=
  ⟨true, true, [("as1", 1)], [], [], [], twoAsMatches, 1, true, 0, 4, 0,
   []⟩

/-- An oracle that parses with no address-set or port-group reference,
records one `is_chassis_resident` port reference, and produces one
conjunction-free match. -/
def orcExprInstall : Oracle :=
  ⟨true, true, [], [], ["cr0"], [], [⟨none, 0, [], 0⟩], 0, true, 0, 0, 0,
   []⟩

/-! ### Helper lemmas about the resource-reference index -/

theorem addToBuckets_self (bs : List RefBucket) (t : RefType)
    (n : String) (u : Uuid) (c : Nat) :
    ∃ b ∈ addToBuckets bs t n u c,
      b.rtype = t ∧ b.rname = n ∧ u ∈ b.rows.map Prod.fst := by
  induction bs with
  | nil =>
    exact ⟨⟨t, n, [(u, c)]⟩, by simp [addToBuckets]⟩
  | cons b bs ih =>
    by_cases h : b.rtype = t ∧ b.rname = n
    · refine ⟨{b with rows := b.rows ++ [(u, c)]}, ?_, h.1, h.2, ?_⟩
      · simp [addToBuckets, h]
      · simp
    · obtain ⟨b0, hb0, hp⟩ := ih
      exact ⟨b0, by simp [addToBuckets, h, hb0], hp⟩

theorem addToBuckets_preserve (bs : List RefBucket) (t' : RefType)
    (n' : String) (u' : Uuid) (c' : Nat) {t : RefType} {n : String}
    {u : Uuid}
    (h : ∃ b ∈ bs, b.rtype = t ∧ b.rname = n ∧ u ∈ b.rows.map Prod.fst) :
    ∃ b ∈ addToBuckets bs t' n' u' c',
      b.rtype = t ∧ b.rname = n ∧ u ∈ b.rows.map Prod.fst := by
  induction bs with
  | nil => simp at h
  | cons b bs ih =>
    obtain ⟨b0, hb0, hp⟩ := h
    by_cases hc : b.rtype = t' ∧ b.rname = n'
    · rcases List.mem_cons.mp hb0 with hb | hb
      · subst hb
        refine ⟨{b0 with rows := b0.rows ++ [(u', c')]}, ?_, hp.1, hp.2.1, ?_⟩
        · simp [addToBuckets, hc]
        · simp [hp.2.2]
      · exact ⟨b0, by simp [addToBuckets, hc, hb], hp⟩
    · rcases List.mem_cons.mp hb0 with hb | hb
      · subst hb
        exact ⟨b0, by simp [addToBuckets, hc], hp⟩
      · obtain ⟨b1, hb1, hp1⟩ := ih ⟨b0, hb, hp⟩
        exact ⟨b1, by simp [addToBuckets, hc, hb1], hp1⟩

theorem addToNodes_self (nds : List LflowRefNode) (t : RefType)
    (n : String) (u : Uuid) (c : Nat) :
    ∃ nd ∈ addToNodes nds t n u c, nd.lflow_uuid = u ∧
      ∃ e ∈ nd.refs, e.1 = t ∧ e.2.1 = n := by
  induction nds with
  | nil =>
    exact ⟨⟨u, [(t, n, c)]⟩, by simp [addToNodes]⟩
  | cons nd nds ih =>
    by_cases h : nd.lflow_uuid = u
    · refine ⟨{nd with refs := nd.refs ++ [(t, n, c)]}, ?_, h, ?_⟩
      · simp [addToNodes, h]
      · exact ⟨(t, n, c), by simp, rfl, rfl⟩
    · obtain ⟨nd0, hnd0, hp⟩ := ih
      exact ⟨nd0, by simp [addToNodes, h, hnd0], hp⟩

theorem find?_bucket_hasEdge {r : LflowResourceRef} {t : RefType}
    {n : String} {u : Uuid} {b : RefBucket}
    (hb : ref_lflow_lookup r t n = some b)
    (hu : u ∈ b.rows.map Prod.fst) : HasRefEdge r t n u := by
  have hmem := List.mem_of_find?_eq_some hb
  have hpred := List.find?_some hb
  simp only [Bool.and_eq_true, beq_iff_eq] at hpred
  exact ⟨b, hmem, hpred.1, hpred.2, hu⟩

theorem resourceAddDup_hasEdge {r : LflowResourceRef} {t : RefType}
    {n : String} {u : Uuid} (hdup : resourceAddDup r t n u = true) :
    HasRefEdge r t n u := by
  unfold resourceAddDup at hdup
  rcases h1 : ref_lflow_lookup r t n with _ | b <;>
    rcases h2 : lflow_ref_lookup r u with _ | nd <;>
      rw [h1, h2] at hdup
  · simp at hdup
  · simp at hdup
  · simp at hdup
  · simp only [List.any_eq_true] at hdup
    obtain ⟨p, hp, hpe⟩ := hdup
    have hu : u ∈ b.rows.map Prod.fst := by
      simp only [beq_iff_eq] at hpe
      exact List.mem_map.mpr ⟨p, hp, hpe⟩
    exact find?_bucket_hasEdge h1 hu

theorem lflow_resource_add_hasEdge (r : LflowResourceRef) (t : RefType)
    (n : String) (u : Uuid) (c : Nat) :
    HasRefEdge (lflow_resource_add r t n u c) t n u := by
  unfold lflow_resource_add
  split
  · next hdup => exact resourceAddDup_hasEdge hdup
  · exact addToBuckets_self r.ref_lflow_table t n u c

theorem lflow_resource_add_preserveEdge (r : LflowResourceRef)
    (t' : RefType) (n' : String) (u' : Uuid) (c' : Nat) {t : RefType}
    {n : String} {u : Uuid} (h : HasRefEdge r t n u) :
    HasRefEdge (lflow_resource_add r t' n' u' c') t n u := by
  unfold lflow_resource_add
  split
  · exact h
  · exact addToBuckets_preserve r.ref_lflow_table t' n' u' c' h

theorem lookupPortCb_state (env : Env) (dp : DatapathBinding) (u : Uuid)
    (lfrr : LflowResourceRef) (pn : String) (hpn : ¬ pn = "none") :
    (lookup_port_cb env dp u lfrr pn).2 =
      lflow_resource_add lfrr .PORTBINDING pn u 0 ∨
    (lookup_port_cb env dp u lfrr pn).2 =
      lflow_resource_add (lflow_resource_add lfrr .PORTBINDING pn u 0)
        .MC_GROUP (get_mc_group_key pn dp.tunnelKey) u 0 := by
  unfold lookup_port_cb
  rw [if_neg hpn]
  rcases hpb : env.port_binding_by_name pn with _ | pb
  · rcases hmc : env.mcgroup_by_dp_name dp.dpUuid pn with _ | k <;>
      simp [hpb, hmc]
  · by_cases hdp : pb.dpUuid = dp.dpUuid
    · simp [hpb, hdp]
    · rcases hmc : env.mcgroup_by_dp_name dp.dpUuid pn with _ | k <;>
        simp [hpb, hdp, hmc]

/-- C10: the port-lookup callback, given the literal name `"none"`,
succeeds with port number 0 and registers no reference of any kind in
the resource-reference index (the index is returned untouched); for
every other port name a `PORTBINDING` reference for that name is
recorded unconditionally, even when both lookups ultimately fail. -/
theorem lookup_port_cb_none_and_refs (env : Env) (dp : DatapathBinding)
    (u : Uuid) (lfrr : LflowResourceRef) :
    lookup_port_cb env dp u lfrr "none" = (some 0, lfrr) ∧
    ∀ portName, ¬ portName = "none" →
      HasRefEdge (lookup_port_cb env dp u lfrr portName).2
        .PORTBINDING portName u := by
  constructor
  · simp [lookup_port_cb]
  · intro pn hpn
    rcases lookupPortCb_state env dp u lfrr pn hpn with h | h <;> rw [h]
    · exact lflow_resource_add_hasEdge lfrr .PORTBINDING pn u 0
    · exact lflow_resource_add_preserveEdge _ _ _ _ _
        (lflow_resource_add_hasEdge lfrr .PORTBINDING pn u 0)

theorem lookup_port_cb_none_and_refs_witness :
    ¬ "p1" = "none" ∧
    HasRefEdge (lookup_port_cb envLocal7 dp7 1 emptyLfrr "p1").2
      .PORTBINDING "p1" 1 :=
  ⟨by decide,
   (lookup_port_cb_none_and_refs envLocal7 dp7 1 emptyLfrr).2 "p1"
     (by decide)⟩

/-- C5: `lflow_resource_add` is idempotent.  When the
`(kind, name, row)` mapping is already present in the index (the
forward bucket exists and lists the row, and the reverse-map node
exists), the call returns the index unchanged — neither side is
touched and the stored ref count is not updated.  Otherwise the edge
is inserted on both sides, creating the bucket and the node as
needed. -/
theorem lflow_resource_add_idempotent (r : LflowResourceRef)
    (t : RefType) (n : String) (u : Uuid) (c : Nat) :
    (∀ b, ref_lflow_lookup r t n = some b →
      (lflow_ref_lookup r u).isSome = true →
      u ∈ b.rows.map Prod.fst →
      lflow_resource_add r t n u c = r) ∧
    (¬ HasRefEdge r t n u →
      HasRefEdge (lflow_resource_add r t n u c) t n u ∧
      RowHasRef (lflow_resource_add r t n u c) u t n) := by
  constructor
  · intro b hb hn hu
    have hdup : resourceAddDup r t n u = true := by
      unfold resourceAddDup
      rcases h2 : lflow_ref_lookup r u with _ | nd
      · rw [h2] at hn; simp at hn
      · rw [hb]
        simp only [List.any_eq_true]
        obtain ⟨p, hp, hpe⟩ := List.mem_map.mp hu
        exact ⟨p, hp, by simp [hpe]⟩
    unfold lflow_resource_add
    rw [hdup]
    simp
  · intro hne
    rcases hd : resourceAddDup r t n u with _ | _
    · unfold lflow_resource_add
      rw [hd]
      simp only [Bool.false_eq_true, if_false]
      exact ⟨addToBuckets_self _ t n u c, addToNodes_self _ t n u c⟩
    · exact absurd (resourceAddDup_hasEdge hd) hne

theorem lflow_resource_add_idempotent_witness :
    lflow_resource_add lfrrWithEdge .ADDRSET "as1" 5 9 = lfrrWithEdge :=
  (lflow_resource_add_idempotent lfrrWithEdge .ADDRSET "as1" 5 9).1
    ⟨.ADDRSET, "as1", [(5, 2)]⟩ (by decide) (by decide) (by decide)

/-- C9: `lflow_handle_changed_flows` reports handled for every input:
its result flag is initialized to `true` and never reassigned on any
path, so this handler never requests the caller's full-rebuild
fallback by itself. -/
theorem handle_changed_flows_returns_true (tracked : List TrackedLflow)
    (reprocess : TrackedLflow → CLFState → CLFState) (st : CLFState) :
    (lflow_handle_changed_flows tracked reprocess st).1 = true := rfl

/-- C6: a row whose datapath is not in the local-datapaths map is
dropped by the row compiler before anything happens: no flow is
emitted, no action parse is attempted, no reference is registered and
neither the cache nor the conjunction-id allocator is touched (the
state is returned unchanged); the synthetic re-translation drops such
a pair the same way (reporting handled). -/
theorem nonlocal_datapath_no_emission (lf : LogicalFlow)
    (dp : DatapathBinding) (env : Env) (orc : Oracle) (st : CLFState)
    (h : get_local_datapath env dp.tunnelKey = none) :
    consider_logical_flow__ lf dp env orc st = st ∧
    ∀ asName rc vals,
      consider_lflow_for_added_as_ips__ lf dp asName rc vals env orc st =
        (true, st) := by
  constructor
  · unfold consider_logical_flow__
    rw [h]
  · intro asName rc vals
    unfold consider_lflow_for_added_as_ips__
    rw [h]

theorem nonlocal_datapath_no_emission_witness :
    consider_logical_flow__ lf1 dp7 envEmpty orcNoMatches st0 = st0 :=
  (nonlocal_datapath_no_emission lf1 dp7 envEmpty orcNoMatches st0
    rfl).1

/-- C7: when the row names a controller meter and the external
id-assignment table is exhausted (returns `EXT_TABLE_ID_INVALID`), the
meter id used equals the no-meter value `NX_CTLR_NO_METER`, and
`add_matches_to_flow_table` behaves exactly as if no meter were
configured — the row's flows are still emitted, the row is not
skipped. -/
theorem ctrl_meter_exhaustion_no_meter (lf : LogicalFlow) (m : String)
    (ldp : LocalDatapath) (env : Env) (orc : Oracle)
    (ms : List ExprMatch) (pt : Nat) (lfrr : LflowResourceRef)
    (hm : lf.controller_meter = some m)
    (he : orc.meterAssign = EXT_TABLE_ID_INVALID) :
    lflow_parse_ctrl_meter lf.controller_meter orc.meterAssign =
      NX_CTLR_NO_METER ∧
    add_matches_to_flow_table lf ldp env orc ms pt lfrr =
      add_matches_to_flow_table {lf with controller_meter := none} ldp
        env orc ms pt lfrr := by
  have h1 : lflow_parse_ctrl_meter lf.controller_meter orc.meterAssign =
      NX_CTLR_NO_METER := by
    rw [hm, he]
    rfl
  refine ⟨h1, ?_⟩
  unfold add_matches_to_flow_table
  rw [h1]
  rfl

theorem ctrl_meter_exhaustion_no_meter_witness :
    add_matches_to_flow_table lf1meter ⟨dp7, true⟩ envLocal7
      orcNoMatches twoAsMatches 8 emptyLfrr =
    add_matches_to_flow_table {lf1meter with controller_meter := none}
      ⟨dp7, true⟩ envLocal7 orcNoMatches twoAsMatches 8 emptyLfrr :=
  (ctrl_meter_exhaustion_no_meter lf1meter "m" ⟨dp7, true⟩ envLocal7
    orcNoMatches twoAsMatches 8 emptyLfrr rfl rfl).2

/-- C1: whenever the old size of the address set is at most 1, or the
new size is at most 1, or the diff is not strictly smaller than the
new size, `lflow_handle_addr_set_update` returns unhandled (`false`)
at once, emitting and removing nothing, so the caller falls back to
reprocessing the rows. -/
theorem lflow_handle_addr_set_update_precondition (asName : String)
    (n_values : Nat) (added deleted : Option (List Nat))
    (rows : Option (List AsUpdateRow))
    (h : oldAsSize n_values ((added.map List.length).getD 0)
          ((deleted.map List.length).getD 0) ≤ 1 ∨
        n_values ≤ 1 ∨
        n_values ≤ ((added.map List.length).getD 0 % U64 +
          (deleted.map List.length).getD 0 % U64) % U64) :
    lflow_handle_addr_set_update asName n_values added deleted rows =
      (false, []) := by
  have hc : as_update_can_be_handled n_values
      ((added.map List.length).getD 0)
      ((deleted.map List.length).getD 0) = false := by
    unfold as_update_can_be_handled
    rcases h with h | h | h
    · rw [if_pos (Or.inl h)]
    · rw [if_pos (Or.inr h)]
    · by_cases h2 : oldAsSize n_values ((added.map List.length).getD 0)
          ((deleted.map List.length).getD 0) ≤ 1 ∨ n_values ≤ 1
      · rw [if_pos h2]
      · rw [if_neg h2, if_pos h]
  simp [lflow_handle_addr_set_update, hc]

theorem lflow_handle_addr_set_update_precondition_witness :
    lflow_handle_addr_set_update "a" 1 (some [5]) none none =
      (false, []) :=
  lflow_handle_addr_set_update_precondition "a" 1 (some [5]) none none
    (Or.inr (Or.inl (by decide)))

/-- C8: for every MAC binding whose logical port resolves and sits on a
local datapath (and whose mac and ip parse), the neighbor emitter
produces exactly two rules — one in the ARP/ND-get table and one in
the ARP/ND-lookup table — carrying priority 150 for static bindings
with the override flag, 50 for static bindings without it, and 100 for
dynamic bindings; this holds on the full rebuild
(`add_neighbor_flows`) and in both tracked-change handlers. -/
theorem neighbor_flow_priorities (env : Env) (nb : NeighborBinding)
    (pb : PortBinding) (ldp : LocalDatapath)
    (h1 : env.port_binding_by_name nb.logical_port = some pb)
    (h2 : get_local_datapath env pb.dpTunnelKey = some ldp)
    (h3 : nb.macValid = true) (h4 : nb.ipValid = true) :
    (∀ p, consider_neighbor_flow env nb p =
      [NbrOp.add OFTABLE_MAC_BINDING p nb.uuid,
       NbrOp.add OFTABLE_MAC_LOOKUP p nb.uuid]) ∧
    add_neighbor_flows env [nb] [] =
      [NbrOp.add OFTABLE_MAC_BINDING 100 nb.uuid,
       NbrOp.add OFTABLE_MAC_LOOKUP 100 nb.uuid] ∧
    (∀ ov, add_neighbor_flows env [] [⟨nb, ov⟩] =
      [NbrOp.add OFTABLE_MAC_BINDING (if ov then 150 else 50) nb.uuid,
       NbrOp.add OFTABLE_MAC_LOOKUP (if ov then 150 else 50) nb.uuid]) ∧
    lflow_handle_changed_mac_bindings env [⟨nb, false, true⟩] =
      [NbrOp.add OFTABLE_MAC_BINDING 100 nb.uuid,
       NbrOp.add OFTABLE_MAC_LOOKUP 100 nb.uuid] ∧
    (∀ ov,
      lflow_handle_changed_static_mac_bindings env
        [⟨⟨nb, ov⟩, false, true⟩] =
      [NbrOp.add OFTABLE_MAC_BINDING (if ov then 150 else 50) nb.uuid,
       NbrOp.add OFTABLE_MAC_LOOKUP (if ov then 150 else 50) nb.uuid]) := by
  have hcn : ∀ p, consider_neighbor_flow env nb p =
      [NbrOp.add OFTABLE_MAC_BINDING p nb.uuid,
       NbrOp.add OFTABLE_MAC_LOOKUP p nb.uuid] := by
    intro p
    unfold consider_neighbor_flow
    simp only [h1, h2, h3, h4]
    simp
  refine ⟨hcn, ?_, ?_, ?_, ?_⟩
  · simp [add_neighbor_flows, hcn]
  · intro ov
    simp [add_neighbor_flows, hcn]
  · simp [lflow_handle_changed_mac_bindings, hcn]
  · intro ov
    simp [lflow_handle_changed_static_mac_bindings, hcn]

theorem neighbor_flow_priorities_witness :
    add_neighbor_flows envNbr [] [⟨nb1, true⟩] =
      [NbrOp.add OFTABLE_MAC_BINDING (if true then 150 else 50) nb1.uuid,
       NbrOp.add OFTABLE_MAC_LOOKUP (if true then 150 else 50)
         nb1.uuid] :=
  (neighbor_flow_priorities envNbr nb1 ⟨70, 7, 3⟩ ⟨dp7, true⟩ rfl rfl
    rfl rfl).2.2.1 true

theorem amft_ops_indep (lf : LogicalFlow) (ldp : LocalDatapath)
    (env : Env) (orc : Oracle) (ms : List ExprMatch) (pt : Nat)
    (l1 l2 : LflowResourceRef) :
    (add_matches_to_flow_table lf ldp env orc ms pt l1).1 =
    (add_matches_to_flow_table lf ldp env orc ms pt l2).1 := rfl

/-- C2 counterexample: in the synthetic re-translation, with a
surviving-match count that does equal `ref_count × |added|` but with
conjunctions present and no conjunction-id base recorded for the row,
the handler returns unhandled and emits nothing — refuting the claim
that whenever the count check passes it emits exactly the (non-empty)
surviving matches. -/
theorem added_as_ips_claim_counterexample :
    (asSurvivors "as1" false 12 orcAsNoBase.expr_matches).length =
      1 * [11, 12].length ∧
    ¬ asSurvivors "as1" false 12 orcAsNoBase.expr_matches = [] ∧
    (consider_lflow_for_added_as_ips__ lf1 dp7 "as1" 1 [11, 12]
      envLocal7 orcAsNoBase st0).1 = false ∧
    (consider_lflow_for_added_as_ips__ lf1 dp7 "as1" 1 [11, 12]
      envLocal7 orcAsNoBase st0).2.flowOps = [] := by decide

/-- C2 (amended): after discarding every produced match not annotated
with the changed address set's name (and the synthetic-padding match,
when one was inserted), if the number of survivors differs from
`ref_count × |added|` the handler reports unhandled and emits nothing;
otherwise, when conjunctions are present the handler additionally
requires a recorded conjunction-id base — reporting unhandled with no
emission when there is none — and emits exactly the flows the
per-match emitter derives from the surviving matches (rebased onto the
found conjunction-id base when conjunctions are present). -/
theorem added_as_ips_verification (lf : LogicalFlow)
    (dp : DatapathBinding) (asName : String) (rc : Nat)
    (addedVals : List Nat) (env : Env) (orc : Oracle) (st : CLFState)
    (ldp : LocalDatapath)
    (hl : get_local_datapath env dp.tunnelKey = some ldp)
    (ha : orc.actionsParseOk = true)
    (hp : orc.parseOk = true)
    (hm : ¬ orc.expr_matches = []) :
    ((asSurvivors asName (addedVals.length = 1) (addedVals.headD 0 + 1)
        orc.expr_matches).length ≠ rc * addedVals.length →
      (consider_lflow_for_added_as_ips__ lf dp asName rc addedVals env
        orc st).1 = false ∧
      (consider_lflow_for_added_as_ips__ lf dp asName rc addedVals env
        orc st).2.flowOps = st.flowOps) ∧
    ((asSurvivors asName (addedVals.length = 1) (addedVals.headD 0 + 1)
        orc.expr_matches).length = rc * addedVals.length →
      orc.n_conjs = 0 →
      (consider_lflow_for_added_as_ips__ lf dp asName rc addedVals env
        orc st).1 = true ∧
      (consider_lflow_for_added_as_ips__ lf dp asName rc addedVals env
        orc st).2.flowOps = st.flowOps ++
        (add_matches_to_flow_table lf ldp env orc
          (asSurvivors asName (addedVals.length = 1)
            (addedVals.headD 0 + 1) orc.expr_matches)
          (lflowPtable lf) st.lfrr).1) ∧
    ((asSurvivors asName (addedVals.length = 1) (addedVals.headD 0 + 1)
        orc.expr_matches).length = rc * addedVals.length →
      ¬ orc.n_conjs = 0 → orc.conjIdFind = 0 →
      (consider_lflow_for_added_as_ips__ lf dp asName rc addedVals env
        orc st).1 = false ∧
      (consider_lflow_for_added_as_ips__ lf dp asName rc addedVals env
        orc st).2.flowOps = st.flowOps) ∧
    ((asSurvivors asName (addedVals.length = 1) (addedVals.headD 0 + 1)
        orc.expr_matches).length = rc * addedVals.length →
      ¬ orc.n_conjs = 0 → ¬ orc.conjIdFind = 0 →
      (consider_lflow_for_added_as_ips__ lf dp asName rc addedVals env
        orc st).1 = true ∧
      (consider_lflow_for_added_as_ips__ lf dp asName rc addedVals env
        orc st).2.flowOps = st.flowOps ++
        (add_matches_to_flow_table lf ldp env orc
          (expr_matches_prepare
            (asSurvivors asName (addedVals.length = 1)
              (addedVals.headD 0 + 1) orc.expr_matches)
            (orc.conjIdFind - 1))
          (lflowPtable lf) st.lfrr).1) := by
  refine ⟨?_, ?_, ?_, ?_⟩
  · intro hcount
    simp only [List.headD_eq_head?_getD] at hcount
    simp [consider_lflow_for_added_as_ips__, hl, ha, hp, hm, hcount]
  · intro hcount hnc
    simp only [List.headD_eq_head?_getD] at hcount
    simp [consider_lflow_for_added_as_ips__, hl, ha, hp, hm, hcount,
      hnc]
    all_goals rfl
  · intro hcount hnc hfind
    simp only [List.headD_eq_head?_getD] at hcount
    simp [consider_lflow_for_added_as_ips__, hl, ha, hp, hm, hcount,
      hnc, hfind]
  · intro hcount hnc hfind
    simp only [List.headD_eq_head?_getD] at hcount
    simp [consider_lflow_for_added_as_ips__, hl, ha, hp, hm, hcount,
      hnc, hfind]
    all_goals rfl

theorem added_as_ips_verification_witness :
    (consider_lflow_for_added_as_ips__ lf1 dp7 "as1" 1 [11, 12]
      envLocal7 orcAsBase4 st0).1 = true ∧
    (consider_lflow_for_added_as_ips__ lf1 dp7 "as1" 1 [11, 12]
      envLocal7 orcAsBase4 st0).2.flowOps = st0.flowOps ++
      (add_matches_to_flow_table lf1 ⟨dp7, true⟩ envLocal7 orcAsBase4
        (expr_matches_prepare
          (asSurvivors "as1" ([11, 12].length = 1)
            ([11, 12].headD 0 + 1) orcAsBase4.expr_matches)
          (orcAsBase4.conjIdFind - 1))
        (lflowPtable lf1) st0.lfrr).1 :=
  (added_as_ips_verification lf1 dp7 "as1" 1 [11, 12] envLocal7
    orcAsBase4 st0 ⟨dp7, true⟩ rfl rfl rfl (by decide)).2.2.2
    (by decide) (by decide) (by decide)

theorem ioPortGate_state (lf : LogicalFlow) (dp : DatapathBinding)
    (env : Env) (st : CLFState) :
    ∃ l, (ioPortGate lf dp env st).2 = {st with lfrr := l} := by
  unfold ioPortGate
  rcases hio : lf.io_port with _ | name
  · exact ⟨st.lfrr, rfl⟩
  · dsimp only
    rcases hpb : env.port_binding_by_name name with _ | pb
    · exact ⟨_, rfl⟩
    · dsimp only
      by_cases h : (dp.tunnelKey, pb.tunnelKey) ∈ env.relatedLportIds
      · rw [if_pos h]
        exact ⟨_, rfl⟩
      · rw [if_neg h]
        exact ⟨_, rfl⟩

theorem emitAndCache_lfrr (lf : LogicalFlow) (ldp : LocalDatapath)
    (env : Env) (orc : Oracle) (xs : List ExprMatch) (s k : Nat)
    (ca isNone : Bool) (st : CLFState) :
    (emitAndCache lf ldp env orc xs s k ca isNone st).lfrr =
      (add_matches_to_flow_table lf ldp env orc xs (lflowPtable lf)
        st.lfrr).2.1 := by
  unfold emitAndCache
  dsimp only
  split
  · split
    · rfl
    · split
      · rfl
      · rfl
  · rfl

theorem emitAndCache_addMatches_mem (lf : LogicalFlow)
    (ldp : LocalDatapath) (env : Env) (orc : Oracle)
    (xs : List ExprMatch) (s k : Nat) (ca isNone : Bool) (st : CLFState)
    (u : Uuid) (ofs n : Nat) (ms : List ExprMatch)
    (hmem : CacheOp.addMatches u ofs n ms ∈
      (emitAndCache lf ldp env orc xs s k ca isNone st).cacheOps) :
    CacheOp.addMatches u ofs n ms ∈ st.cacheOps ∨
    (u = lf.uuid ∧ ca = true ∧
      lflow_ref_lookup (add_matches_to_flow_table lf ldp env orc xs
        (lflowPtable lf) st.lfrr).2.1 lf.uuid = none) := by
  unfold emitAndCache at hmem
  dsimp only at hmem
  split at hmem
  · split at hmem
    · next hc2 =>
      rcases List.mem_append.mp hmem with h | h
      · exact Or.inl h
      · simp only [List.mem_singleton, CacheOp.addMatches.injEq] at h
        refine Or.inr ⟨h.1, hc2.1, ?_⟩
        exact Option.isNone_iff_eq_none.mp hc2.2
    · split at hmem
      · rcases List.mem_append.mp hmem with h | h
        · exact Or.inl h
        · simp at h
      · exact Or.inl hmem
  · exact Or.inl hmem

theorem cacheProbe_none {cache : LflowCache} {u : Uuid} (dpU : Uuid)
    (ok : Bool) (hcg : lflow_cache_get cache u = none) :
    cacheProbe u dpU ok cache = (.tNone, cache, [], []) := by
  unfold cacheProbe
  rw [hcg]

theorem cacheProbe_expr {cache : LflowCache} {u : Uuid} {e : Nat}
    (dpU : Uuid) (ok : Bool)
    (hcg : lflow_cache_get cache u = some (.cExpr e)) :
    cacheProbe u dpU ok cache = (.tExpr e, cache, [], []) := by
  unfold cacheProbe
  rw [hcg]

theorem cacheProbe_matches_n0 {cache : LflowCache} {u : Uuid}
    {ofs : Nat} {ms : List ExprMatch} (dpU : Uuid) (ok : Bool)
    (hcg : lflow_cache_get cache u = some (.cMatches ofs 0 ms)) :
    cacheProbe u dpU ok cache = (.tMatches ofs 0 ms, cache, [], []) := by
  unfold cacheProbe
  rw [hcg]
  simp

theorem cacheProbe_matches_ok {cache : LflowCache} {u : Uuid}
    {ofs n : Nat} {ms : List ExprMatch} (dpU : Uuid)
    (hcg : lflow_cache_get cache u = some (.cMatches ofs n ms))
    (hn : ¬ n = 0) :
    cacheProbe u dpU true cache =
      (.tMatches ofs n ms, cache,
       [CidOp.allocSpecified u dpU ofs n true], []) := by
  unfold cacheProbe
  rw [hcg]
  simp [hn]

theorem cacheProbe_matches_fail {cache : LflowCache} {u : Uuid}
    {ofs n : Nat} {ms : List ExprMatch} (dpU : Uuid)
    (hcg : lflow_cache_get cache u = some (.cMatches ofs n ms))
    (hn : ¬ n = 0) :
    cacheProbe u dpU false cache =
      (.tNone, lflow_cache_delete cache u,
       [CidOp.allocSpecified u dpU ofs n false], [CacheOp.delete u]) := by
  unfold cacheProbe
  rw [hcg]
  simp [hn]

theorem exprPathRest_addMatches_mem (lf : LogicalFlow)
    (ldp : LocalDatapath) (env : Env) (orc : Oracle)
    (dp : DatapathBinding) (ca isNone : Bool) (st : CLFState)
    (u : Uuid) (ofs n : Nat) (ms : List ExprMatch)
    (hmem : CacheOp.addMatches u ofs n ms ∈
      (exprPathRest lf ldp env orc dp ca isNone st).cacheOps) :
    CacheOp.addMatches u ofs n ms ∈ st.cacheOps ∨
    (u = lf.uuid ∧ ca = true ∧
      lflow_ref_lookup (exprPathRest lf ldp env orc dp ca isNone
        st).lfrr lf.uuid = none) := by
  unfold exprPathRest at hmem ⊢
  dsimp only at hmem ⊢
  split at hmem
  · next h1 =>
    rw [if_pos h1]
    exact Or.inl hmem
  · next h1 =>
    rw [if_neg h1]
    split at hmem
    · next h2 =>
      rw [if_pos h2]
      split at hmem
      · next h3 =>
        rw [if_pos h3]
        exact Or.inl hmem
      · next h3 =>
        rw [if_neg h3]
        rcases emitAndCache_addMatches_mem _ _ _ _ _ _ _ _ _ _ _ _ _ _
            hmem with h | h
        · exact Or.inl h
        · refine Or.inr ⟨h.1, h.2.1, ?_⟩
          rw [emitAndCache_lfrr]
          exact h.2.2
    · next h2 =>
      rw [if_neg h2]
      rcases emitAndCache_addMatches_mem _ _ _ _ _ _ _ _ _ _ _ _ _ _
          hmem with h | h
      · exact Or.inl h
      · refine Or.inr ⟨h.1, h.2.1, ?_⟩
        rw [emitAndCache_lfrr]
        exact h.2.2

theorem translateWithLcv_addMatches_mem (lf : LogicalFlow)
    (dp : DatapathBinding) (ldp : LocalDatapath) (env : Env)
    (orc : Oracle) (lcv : Lcv) (st : CLFState) (u : Uuid) (ofs n : Nat)
    (ms : List ExprMatch)
    (hmem : CacheOp.addMatches u ofs n ms ∈
      (translateWithLcv lf dp ldp env orc lcv st).cacheOps) :
    CacheOp.addMatches u ofs n ms ∈ st.cacheOps ∨
    (u = lf.uuid ∧ orc.parseAsRefs = [] ∧ orc.parsePgRefs = [] ∧
      lflow_ref_lookup (translateWithLcv lf dp ldp env orc lcv
        st).lfrr lf.uuid = none) := by
  cases lcv with
  | tMatches ofs2 n2 ms2 =>
    exact Or.inl hmem
  | tExpr e =>
    rcases exprPathRest_addMatches_mem lf ldp env orc dp false false st
        u ofs n ms hmem with h | h
    · exact Or.inl h
    · exact absurd h.2.1 (by simp)
  | tNone =>
    unfold translateWithLcv at hmem ⊢
    dsimp only at hmem ⊢
    split at hmem
    · next hpf =>
      rw [if_pos hpf]
      exact Or.inl hmem
    · next hpf =>
      rw [if_neg hpf]
      rcases exprPathRest_addMatches_mem lf ldp env orc dp _ true _
          u ofs n ms hmem with h | h
      · exact Or.inl h
      · obtain ⟨hu, hca, hlook⟩ := h
        have hpg : st.cache.enabled = true ∧
            ¬ pgAddrSetRefOf orc = true := by
          have := of_decide_eq_true hca
          exact this
        have hrefs : orc.parseAsRefs = [] ∧ orc.parsePgRefs = [] := by
          have h2 := hpg.2
          simp [pgAddrSetRefOf] at h2
          exact h2
        exact Or.inr ⟨hu, hrefs.1, hrefs.2, hlook⟩

theorem translateCore_addMatches_mem (lf : LogicalFlow)
    (dp : DatapathBinding) (ldp : LocalDatapath) (env : Env)
    (orc : Oracle) (st : CLFState) (u : Uuid) (ofs n : Nat)
    (ms : List ExprMatch)
    (hmem : CacheOp.addMatches u ofs n ms ∈
      (translateCore lf dp ldp env orc st).cacheOps) :
    CacheOp.addMatches u ofs n ms ∈ st.cacheOps ∨
    (u = lf.uuid ∧ orc.parseAsRefs = [] ∧ orc.parsePgRefs = [] ∧
      lflow_ref_lookup (translateCore lf dp ldp env orc st).lfrr
        lf.uuid = none) := by
  unfold translateCore at hmem ⊢
  rcases hcg : lflow_cache_get st.cache lf.uuid with _ | lcv
  · rw [cacheProbe_none dp.dpUuid orc.allocSpecifiedOk hcg] at hmem ⊢
    dsimp only at hmem ⊢
    rcases translateWithLcv_addMatches_mem _ _ _ _ _ _ _ _ _ _ _ hmem
        with h | h
    · refine Or.inl ?_
      simpa using h
    · refine Or.inr ⟨h.1, h.2.1, h.2.2.1, h.2.2.2⟩
  · cases lcv with
    | cExpr e =>
      rw [cacheProbe_expr dp.dpUuid orc.allocSpecifiedOk hcg] at hmem ⊢
      dsimp only at hmem ⊢
      rcases translateWithLcv_addMatches_mem _ _ _ _ _ _ _ _ _ _ _ hmem
          with h | h
      · refine Or.inl ?_
        simpa using h
      · exact Or.inr ⟨h.1, h.2.1, h.2.2.1, h.2.2.2⟩
    | cMatches ofs2 n2 ms2 =>
      by_cases hn2 : n2 = 0
      · subst hn2
        rw [cacheProbe_matches_n0 dp.dpUuid orc.allocSpecifiedOk hcg]
          at hmem ⊢
        dsimp only at hmem ⊢
        rcases translateWithLcv_addMatches_mem _ _ _ _ _ _ _ _ _ _ _
            hmem with h | h
        · refine Or.inl ?_
          simpa using h
        · exact Or.inr ⟨h.1, h.2.1, h.2.2.1, h.2.2.2⟩
      · rcases hok : orc.allocSpecifiedOk with _ | _
        · rw [hok] at hmem
          rw [cacheProbe_matches_fail dp.dpUuid hcg hn2] at hmem ⊢
          dsimp only at hmem ⊢
          rcases translateWithLcv_addMatches_mem _ _ _ _ _ _ _ _ _ _ _
              hmem with h | h
          · rcases List.mem_append.mp h with h2 | h2
            · exact Or.inl h2
            · simp at h2
          · exact Or.inr ⟨h.1, h.2.1, h.2.2.1, h.2.2.2⟩
        · rw [hok] at hmem
          rw [cacheProbe_matches_ok dp.dpUuid hcg hn2] at hmem ⊢
          dsimp only at hmem ⊢
          rcases translateWithLcv_addMatches_mem _ _ _ _ _ _ _ _ _ _ _
              hmem with h | h
          · refine Or.inl ?_
            simpa using h
          · exact Or.inr ⟨h.1, h.2.1, h.2.2.1, h.2.2.2⟩

theorem emitAndCache_cidOps (lf : LogicalFlow) (ldp : LocalDatapath)
    (env : Env) (orc : Oracle) (xs : List ExprMatch) (s k : Nat)
    (ca isNone : Bool) (st : CLFState) :
    (emitAndCache lf ldp env orc xs s k ca isNone st).cidOps =
      st.cidOps := by
  unfold emitAndCache
  dsimp only
  split
  · split
    · rfl
    · split
      · rfl
      · rfl
  · rfl

theorem exprPathRest_cidOps (lf : LogicalFlow) (ldp : LocalDatapath)
    (env : Env) (orc : Oracle) (dp : DatapathBinding)
    (ca isNone : Bool) (st : CLFState) :
    ∃ t, (exprPathRest lf ldp env orc dp ca isNone st).cidOps =
      st.cidOps ++ t := by
  unfold exprPathRest
  dsimp only
  split
  · exact ⟨[], by simp⟩
  · split
    · split
      · exact ⟨[CidOp.alloc lf.uuid dp.dpUuid orc.n_conjs
          orc.allocNewId], rfl⟩
      · rw [emitAndCache_cidOps]
        exact ⟨[CidOp.alloc lf.uuid dp.dpUuid orc.n_conjs
          orc.allocNewId], rfl⟩
    · rw [emitAndCache_cidOps]
      exact ⟨[], by simp⟩

theorem translateWithLcv_cidOps (lf : LogicalFlow)
    (dp : DatapathBinding) (ldp : LocalDatapath) (env : Env)
    (orc : Oracle) (lcv : Lcv) (st : CLFState) :
    ∃ t, (translateWithLcv lf dp ldp env orc lcv st).cidOps =
      st.cidOps ++ t := by
  cases lcv with
  | tMatches o k m => exact ⟨[], by simp [translateWithLcv]⟩
  | tExpr e => exact exprPathRest_cidOps lf ldp env orc dp false false st
  | tNone =>
    unfold translateWithLcv
    dsimp only
    split
    · exact ⟨[], by simp⟩
    · exact exprPathRest_cidOps lf ldp env orc dp _ true _

/-- C4: when the row's cache entry is `MATCHES` with `n > 0`
conjunctions, the row compiler (once past its gates) first attempts
`lflow_conj_ids_alloc_specified` for exactly the recorded slice
`(base, n)` for this `(row, datapath)` — it is the first
conjunction-id operation issued; when that allocation fails, the
cache entry for the row is deleted and translation proceeds
exactly as it would with an empty cache state (full reparse), so the
stale cached matches and their conjunction-id slice are never
reused. -/
theorem cached_conj_ids_probe (lf : LogicalFlow) (dp : DatapathBinding)
    (env : Env) (orc : Oracle) (st : CLFState) (ldp : LocalDatapath)
    (st1 : CLFState) (ofs n : Nat) (ms : List ExprMatch)
    (hl : get_local_datapath env dp.tunnelKey = some ldp)
    (hg : ioPortGate lf dp env st = (true, st1))
    (ha : orc.actionsParseOk = true)
    (hc : lflow_cache_get st1.cache lf.uuid = some (.cMatches ofs n ms))
    (hn : ¬ n = 0)
    (hf : orc.allocSpecifiedOk = false) :
    consider_logical_flow__ lf dp env orc st =
      translateWithLcv lf dp ldp env orc .tNone
        {st1 with
          actionsParsed := true,
          cache := lflow_cache_delete st1.cache lf.uuid,
          cidOps := st1.cidOps ++
            [CidOp.allocSpecified lf.uuid dp.dpUuid ofs n false],
          cacheOps := st1.cacheOps ++ [CacheOp.delete lf.uuid]} ∧
    ∃ rest, (consider_logical_flow__ lf dp env orc st).cidOps =
      st1.cidOps ++ CidOp.allocSpecified lf.uuid dp.dpUuid ofs n false ::
        rest := by
  have hmain : consider_logical_flow__ lf dp env orc st =
      translateWithLcv lf dp ldp env orc .tNone
        {st1 with
          actionsParsed := true,
          cache := lflow_cache_delete st1.cache lf.uuid,
          cidOps := st1.cidOps ++
            [CidOp.allocSpecified lf.uuid dp.dpUuid ofs n false],
          cacheOps := st1.cacheOps ++ [CacheOp.delete lf.uuid]} := by
    unfold consider_logical_flow__
    rw [hl]
    dsimp only
    rw [hg]
    simp only [ha]
    unfold translateCore
    rw [hf]
    dsimp only
    rw [cacheProbe_matches_fail dp.dpUuid hc hn]
    simp
  refine ⟨hmain, ?_⟩
  rw [hmain]
  obtain ⟨t, ht⟩ := translateWithLcv_cidOps lf dp ldp env orc .tNone
    {st1 with
      actionsParsed := true,
      cache := lflow_cache_delete st1.cache lf.uuid,
      cidOps := st1.cidOps ++
        [CidOp.allocSpecified lf.uuid dp.dpUuid ofs n false],
      cacheOps := st1.cacheOps ++ [CacheOp.delete lf.uuid]}
  rw [ht]
  exact ⟨t, by simp⟩

theorem cached_conj_ids_probe_witness :
    consider_logical_flow__ lf1 dp7 envLocal7 orcAllocFail
      stCachedMatches =
      translateWithLcv lf1 dp7 ⟨dp7, true⟩ envLocal7 orcAllocFail .tNone
        {stCachedMatches with
          actionsParsed := true,
          cache := lflow_cache_delete stCachedMatches.cache lf1.uuid,
          cidOps := stCachedMatches.cidOps ++
            [CidOp.allocSpecified lf1.uuid dp7.dpUuid 3 2 false],
          cacheOps := stCachedMatches.cacheOps ++
            [CacheOp.delete lf1.uuid]} :=
  (cached_conj_ids_probe lf1 dp7 envLocal7 orcAllocFail stCachedMatches
    ⟨dp7, true⟩ stCachedMatches 3 2 cachedM rfl rfl rfl rfl
    (by decide) rfl).1

theorem emitAndCache_installs_expr (lf : LogicalFlow)
    (ldp : LocalDatapath) (env : Env) (orc : Oracle)
    (xs : List ExprMatch) (s k : Nat) (st : CLFState)
    (hen : st.cache.enabled = true)
    (hlook : ¬ lflow_ref_lookup
      (emitAndCache lf ldp env orc xs s k true true st).lfrr lf.uuid =
      none) :
    CacheOp.addExpr lf.uuid ∈
      (emitAndCache lf ldp env orc xs s k true true st).cacheOps := by
  rw [emitAndCache_lfrr] at hlook
  unfold emitAndCache
  dsimp only
  rw [if_pos ⟨rfl, hen⟩]
  have hfalse : ¬ (true = true ∧
      (lflow_ref_lookup (add_matches_to_flow_table lf ldp env orc xs
        (lflowPtable lf) st.lfrr).2.1 lf.uuid).isNone = true) := by
    rintro ⟨-, hiso⟩
    exact hlook (Option.isNone_iff_eq_none.mp hiso)
  rw [if_neg hfalse]
  rw [if_pos (rfl : true = true)]
  simp

theorem exprPathRest_installs_expr (lf : LogicalFlow)
    (ldp : LocalDatapath) (env : Env) (orc : Oracle)
    (dp : DatapathBinding) (st : CLFState)
    (hm : ¬ orc.expr_matches = [])
    (hconj : orc.n_conjs = 0 ∨ ¬ orc.allocNewId = 0)
    (hen : st.cache.enabled = true)
    (hlook : ¬ lflow_ref_lookup
      (exprPathRest lf ldp env orc dp true true st).lfrr lf.uuid =
      none) :
    CacheOp.addExpr lf.uuid ∈
      (exprPathRest lf ldp env orc dp true true st).cacheOps := by
  unfold exprPathRest at hlook ⊢
  dsimp only at hlook ⊢
  rw [if_neg hm] at hlook ⊢
  by_cases hnc : orc.n_conjs = 0
  · rw [if_neg (not_not_intro hnc)] at hlook ⊢
    exact emitAndCache_installs_expr _ _ _ _ _ _ _ _ hen hlook
  · have han := hconj.resolve_left hnc
    rw [if_pos hnc] at hlook ⊢
    rw [if_neg han] at hlook ⊢
    exact emitAndCache_installs_expr _ _ _ _ _ _ _ _ hen hlook

/-- C3 counterexample: with caching enabled, a row whose parse
references no address set or port group but whose condition
evaluation registers a port-binding reference (so only the first
placement condition holds) and whose expansion yields no match
installs *no* cache entry at all — refuting the claim's parenthesis
that an `EXPR` entry is installed whenever only the first condition
holds. -/
theorem matches_cache_placement_counterexample :
    st0.cache.enabled = true ∧
    orcNoMatches.parseAsRefs = [] ∧ orcNoMatches.parsePgRefs = [] ∧
    ¬ lflow_ref_lookup (consider_logical_flow__ lf1 dp7 envLocal7
      orcNoMatches st0).lfrr lf1.uuid = none ∧
    (consider_logical_flow__ lf1 dp7 envLocal7 orcNoMatches
      st0).cacheOps = [] ∧
    (consider_logical_flow__ lf1 dp7 envLocal7 orcNoMatches
      st0).cache.entries = [] := by decide

/-- C3 (amended): in the row compiler with caching enabled, a
`MATCHES` cache entry is installed only when the row's parse saw no
address-set or port-group reference and the resource-reference index
has no reverse-map entry at all for the row at the time of the cache
write (which is the state the call returns) — hence a `MATCHES` entry
is installed only for a row with no row→refs entry; and when only the
first condition holds (the uncached row's parse succeeded with no such
reference but the row does hold references), an `EXPR` entry is
installed instead, provided the row produced at least one match and
any required fresh conjunction-id allocation succeeded. -/
theorem matches_cache_placement :
    (∀ (lf : LogicalFlow) (dp : DatapathBinding) (env : Env)
        (orc : Oracle) (st : CLFState) (u : Uuid) (ofs n : Nat)
        (ms : List ExprMatch),
      st.cacheOps = [] →
      CacheOp.addMatches u ofs n ms ∈
        (consider_logical_flow__ lf dp env orc st).cacheOps →
      orc.parseAsRefs = [] ∧ orc.parsePgRefs = [] ∧ u = lf.uuid ∧
      lflow_ref_lookup (consider_logical_flow__ lf dp env orc st).lfrr
        lf.uuid = none) ∧
    (∀ (lf : LogicalFlow) (dp : DatapathBinding) (env : Env)
        (orc : Oracle) (st : CLFState) (ldp : LocalDatapath)
        (st1 : CLFState),
      get_local_datapath env dp.tunnelKey = some ldp →
      ioPortGate lf dp env st = (true, st1) →
      orc.actionsParseOk = true →
      lflow_cache_get st1.cache lf.uuid = none →
      st1.cache.enabled = true →
      orc.parseOk = true →
      orc.parseAsRefs = [] → orc.parsePgRefs = [] →
      ¬ orc.expr_matches = [] →
      (orc.n_conjs = 0 ∨ ¬ orc.allocNewId = 0) →
      ¬ lflow_ref_lookup (consider_logical_flow__ lf dp env orc
        st).lfrr lf.uuid = none →
      CacheOp.addExpr lf.uuid ∈
        (consider_logical_flow__ lf dp env orc st).cacheOps) := by
  constructor
  · intro lf dp env orc st u ofs n ms h0 hmem
    unfold consider_logical_flow__ at hmem ⊢
    rcases hld : get_local_datapath env dp.tunnelKey with _ | ldp
    · rw [hld] at hmem
      simp [h0] at hmem
    · rw [hld] at hmem
      dsimp only at hmem ⊢
      obtain ⟨gl, hgl⟩ := ioPortGate_state lf dp env st
      split at hmem
      · next hgate =>
        rw [if_pos hgate]
        rw [hgl] at hmem
        simp [h0] at hmem
      · next hgate =>
        rw [if_neg hgate]
        split at hmem
        · next hpar =>
          rw [if_pos hpar]
          rw [hgl] at hmem
          simp [h0] at hmem
        · next hpar =>
          rw [if_neg hpar]
          rcases translateCore_addMatches_mem _ _ _ _ _ _ _ _ _ _ hmem
              with h | h
          · rw [hgl] at h
            simp [h0] at h
          · exact ⟨h.2.1, h.2.2.1, h.1, h.2.2.2⟩
  · intro lf dp env orc st ldp st1 hl hg ha hcg hen hp has hpg hm
      hconj hlook
    have hca : pgAddrSetRefOf orc = false := by
      simp [pgAddrSetRefOf, has, hpg]
    have hrun : consider_logical_flow__ lf dp env orc st =
        exprPathRest lf ldp env orc dp true true
          {st1 with actionsParsed := true} := by
      unfold consider_logical_flow__
      rw [hl]
      dsimp only
      rw [hg]
      simp only [ha]
      unfold translateCore
      dsimp only
      rw [cacheProbe_none dp.dpUuid orc.allocSpecifiedOk hcg]
      dsimp only
      unfold translateWithLcv
      dsimp only
      simp [hp, hen, hca, addParseRefs, has, hpg]
    rw [hrun] at hlook ⊢
    exact exprPathRest_installs_expr lf ldp env orc dp _ hm hconj hen
      hlook

theorem matches_cache_placement_witness :
    CacheOp.addExpr lf1.uuid ∈
      (consider_logical_flow__ lf1 dp7 envLocal7 orcExprInstall
        st0).cacheOps :=
  matches_cache_placement.2 lf1 dp7 envLocal7 orcExprInstall st0
    ⟨dp7, true⟩ st0 rfl rfl rfl rfl rfl rfl rfl rfl (by decide)
    (Or.inl rfl) (by decide)
